import Mathlib

/-!
Verification of the CHAETRA cognitive core (stock_analysis repository).

Shallow embedding of the opinion / memory / learning / gateway components of
`app/chaetra` (`opinion.py`, `memory.py`, `learning.py`, `brain.py`, `llm.py`).

Modelling conventions:
* Python floats are modelled as exact rationals (`ℚ`); the numeric claims of the
  spec are decimal formulas, which are exact in `ℚ`.
* `uuid.uuid4()` and `datetime.utcnow()` are modelled by threading a fresh-id
  counter through the state, resp. by explicit `now : Nat` timestamps.
  `datetime` objects are opaque timestamps; `isoformat` is their (injective)
  ISO-8601 rendering — no claim depends on the concrete character format.
* The keyed store (`RedisCache` as used through `MemorySystem`) is modelled as
  an association list from key strings to the stored records, with the
  per-key `set`/`delete`/`scan` semantics of `memory.py`; `scan` enumerates
  keys in insertion order.
* Dynamically-typed Python values (`content` maps, evidence items, queries)
  are modelled by the inductive type `Val` below.
-/

set_option autoImplicit false

/-- A dynamically typed Python value, as passed around in `content` maps,
evidence lists and store queries. `uuid` is a `uuid.UUID` object, `dt` a
`datetime.datetime` object (opaque timestamp). -/
inductive Val where
  | none
  | bool (b : Bool)
  | int (n : Int)
  | num (q : ℚ)
  | str (s : String)
  | uuid (n : Nat)
  | dt (t : Nat)
  | list (xs : List Val)
  | dict (fields : List (String × Val))

mutual

/-- Python `==` on the values above (structural; on the scalar shapes used by the
queries of the repository this coincides with Python equality, and values of
different shapes — e.g. a `UUID` object and a `str` — always compare unequal,
as in Python). -/
def Val.beq : Val → Val → Bool
  | .none, .none => true
  | .bool a, .bool b => a == b
  | .int a, .int b => a == b
  | .num a, .num b => a == b
  | .str a, .str b => a == b
  | .uuid a, .uuid b => a == b
  | .dt a, .dt b => a == b
  | .list as, .list bs => Val.beqList as bs
  | .dict as, .dict bs => Val.beqFields as bs
  | _, _ => false

/-- Elementwise `Val.beq` on lists. -/
def Val.beqList : List Val → List Val → Bool
  | [], [] => true
  | a :: as, b :: bs => Val.beq a b && Val.beqList as bs
  | _, _ => false

/-- Entrywise `Val.beq` on dict entries. -/
def Val.beqFields : List (String × Val) → List (String × Val) → Bool
  | [], [] => true
  | (ka, a) :: as, (kb, b) :: bs => ka == kb && Val.beq a b && Val.beqFields as bs
  | _, _ => false

end

/-- Python truthiness (`if v:`) for the modelled values. -/
def Val.truthy : Val → Bool
  | .none => false
  | .bool b => b
  | .int n => n != 0
  | .num q => q != 0
  | .str s => s != ""
  | .uuid _ => true
  | .dt _ => true
  | .list xs => !xs.isEmpty
  | .dict fields => !fields.isEmpty

/-- Python dict lookup `d[k]` / `d.get(k)` on an association-list dict
(keys are unique, first match). -/
def getVal (d : List (String × Val)) (k : String) : Option Val :=
  match d with
  | [] => none
  | (k0, v0) :: rest => if k0 = k then some v0 else getVal rest k

/-- Python `d.get(k, dflt)`. -/
def getValD (d : List (String × Val)) (k : String) (dflt : Val) : Val :=
  (getVal d k).getD dflt

/-- Python dict assignment `d[k] = v`: replaces the value in place if the key
exists, otherwise appends the new entry at the end. -/
def setVal (d : List (String × Val)) (k : String) (v : Val) : List (String × Val) :=
  match d with
  | [] => [(k, v)]
  | (k0, v0) :: rest => if k0 == k then (k, v) :: rest else (k0, v0) :: setVal rest k v

/-- Model of `min(max(c, 0.0), 1.0)` — used by both confidence calculations in
`opinion.py`. -/
def clamp01 (q : ℚ) : ℚ := min (max q 0) 1

theorem clamp01_nonneg (q : ℚ) : 0 ≤ clamp01 q :=
  le_min (le_max_right q 0) zero_le_one

theorem clamp01_le_one (q : ℚ) : clamp01 q ≤ 1 := min_le_right _ _

/-- The ISO-8601 rendering `d.isoformat()` of an (opaque) datetime timestamp.
Injective rendering; no claim depends on the concrete character format. -/
def isoformat (t : Nat) : String := "1970-01-01T00:00:" ++ toString t

mutual

/-- Model of `BaseLLMProvider._serialize_context` (llm.py lines 37-58), acting on a
context dict. For each entry: a `datetime` value becomes its ISO string, a
dict value is serialized recursively, a list value is handled entrywise by
`serializeItems`, and any other value is passed through unchanged. -/
def serialize_context : List (String × Val) → List (String × Val)
  | [] => []
  | (k, v) :: rest => (k, serializeEntry v) :: serialize_context rest

/-- The per-value case split of the loop body of `_serialize_context`. -/
def serializeEntry : Val → Val
  | .dt t => .str (isoformat t)
  | .dict d => .dict (serialize_context d)
  | .list items => .list (serializeItems items)
  | v => v

/-- The `isinstance(v, list)` branch of `_serialize_context`: datetime items
become ISO strings, dict items are serialized recursively, and every other
item — including a nested list — is appended unchanged. -/
def serializeItems : List Val → List Val
  | [] => []
  | .dt t :: rest => .str (isoformat t) :: serializeItems rest
  | .dict d :: rest => .dict (serialize_context d) :: serializeItems rest
  | v :: rest => v :: serializeItems rest

end

mutual

/-- Whether a value contains a `datetime` object nested anywhere inside it
(through lists and dicts at any depth). Specification-side predicate used to
state the context-serialization claim. -/
def Val.containsDT : Val → Bool
  | .dt _ => true
  | .list xs => Val.containsDTList xs
  | .dict fields => Val.containsDTFields fields
  | _ => false

/-- Predicate `Val.containsDT` over a list of values. -/
def Val.containsDTList : List Val → Bool
  | [] => false
  | v :: rest => Val.containsDT v || Val.containsDTList rest

/-- Predicate `Val.containsDT` over dict entries. -/
def Val.containsDTFields : List (String × Val) → Bool
  | [] => false
  | (_, v) :: rest => Val.containsDT v || Val.containsDTFields rest

end

/-- A parsed JSON value, as returned by the Python `json.loads`. Numbers are
modelled as exact rationals (covering both Python ints and floats). -/
inductive JsonVal where
  | null
  | bool (b : Bool)
  | num (q : ℚ)
  | str (s : String)
  | arr (xs : List JsonVal)
  | obj (fields : List (String × JsonVal))

/-- Python dict assignment while building an object: a duplicate key replaces
the earlier value in place (last occurrence wins, original position kept). -/
def insertField (d : List (String × JsonVal)) (k : String) (v : JsonVal) :
    List (String × JsonVal) :=
  match d with
  | [] => [(k, v)]
  | (k0, v0) :: rest => if k0 == k then (k, v) :: rest else (k0, v0) :: insertField rest k v

/-- JSON insignificant whitespace. -/
def skipWs : List Char → List Char
  | [] => []
  | c :: rest => if c = ' ' ∨ c = '\t' ∨ c = '\n' ∨ c = '\r' then skipWs rest else c :: rest

/-- Value of a hexadecimal digit (for `\uXXXX` string escapes). -/
def hexVal (c : Char) : Option Nat :=
  if '0' ≤ c ∧ c ≤ '9' then some (c.toNat - '0'.toNat)
  else if 'a' ≤ c ∧ c ≤ 'f' then some (c.toNat - 'a'.toNat + 10)
  else if 'A' ≤ c ∧ c ≤ 'F' then some (c.toNat - 'A'.toNat + 10)
  else none

/-- Single-character JSON string escapes. -/
def escChar : Char → Option Char
  | '"' => some '"'
  | '\\' => some '\\'
  | '/' => some '/'
  | 'b' => some (Char.ofNat 8)
  | 'f' => some (Char.ofNat 12)
  | 'n' => some '\n'
  | 'r' => some '\r'
  | 't' => some '\t'
  | _ => none

/-- Body of a JSON string (opening quote already consumed): returns the decoded
characters and the input remaining after the closing quote. Raw control
characters are rejected (`json.loads` default strict mode); `\uXXXX` escapes
decode to the code point (surrogate pairs are not recombined — the
inputs in this repository contain none). -/
def parseStringChars : List Char → Option (List Char × List Char)
  | [] => none
  | '"' :: rest => some ([], rest)
  | '\\' :: rest =>
    match rest with
    | [] => none
    | 'u' :: h1 :: h2 :: h3 :: h4 :: rest3 =>
      match hexVal h1, hexVal h2, hexVal h3, hexVal h4 with
      | some a, some b, some c, some d =>
        let code := ((a * 16 + b) * 16 + c) * 16 + d
        (parseStringChars rest3).map fun p => (Char.ofNat code :: p.1, p.2)
      | _, _, _, _ => none
    | e :: rest2 =>
      match escChar e with
      | some c => (parseStringChars rest2).map fun p => (c :: p.1, p.2)
      | none => none
  | c :: rest =>
    if c.toNat < 32 then none
    else (parseStringChars rest).map fun p => (c :: p.1, p.2)

/-- Longest leading run of decimal digits. -/
def takeDigits : List Char → List Char × List Char
  | [] => ([], [])
  | c :: rest =>
    if c.isDigit then
      let p := takeDigits rest
      (c :: p.1, p.2)
    else ([], c :: rest)

/-- Decimal digits to a natural number. -/
def digitsToNat (ds : List Char) : Nat :=
  ds.foldl (fun n c => n * 10 + (c.toNat - '0'.toNat)) 0

/-- Optional exponent suffix of a JSON number (the `e`/`E` already consumed). -/
def parseExp (base : ℚ) (cs : List Char) : Option (ℚ × List Char) :=
  let p1 : Bool × List Char :=
    match cs with
    | '+' :: t => (false, t)
    | '-' :: t => (true, t)
    | _ => (false, cs)
  let p2 := takeDigits p1.2
  if p2.1.isEmpty then none
  else
    let e := digitsToNat p2.1
    some ((if p1.1 then base / (10 : ℚ) ^ e else base * (10 : ℚ) ^ e), p2.2)

/-- A JSON number per RFC 8259: optional minus, integer part without leading
zeros, optional fraction, optional exponent. (the Python `json.loads` would
additionally accept the nonstandard literals `NaN`/`Infinity`, which have no
rational value and never occur in this repository; they are not modelled.) -/
def parseNumber (cs : List Char) : Option (ℚ × List Char) :=
  let p0 : Bool × List Char :=
    match cs with
    | '-' :: t => (true, t)
    | _ => (false, cs)
  let pd := takeDigits p0.2
  if pd.1.isEmpty then none
  else if pd.1.head? = some '0' ∧ pd.1.length ≠ 1 then none
  else
    let step2 : Option (ℚ × List Char) :=
      match pd.2 with
      | '.' :: t =>
        let pf := takeDigits t
        if pf.1.isEmpty then none
        else some ((digitsToNat pd.1 : ℚ) + (digitsToNat pf.1 : ℚ) / (10 : ℚ) ^ pf.1.length, pf.2)
      | _ => some ((digitsToNat pd.1 : ℚ), pd.2)
    match step2 with
    | none => none
    | some (base, cs3) =>
      let step3 : Option (ℚ × List Char) :=
        match cs3 with
        | 'e' :: t => parseExp base t
        | 'E' :: t => parseExp base t
        | _ => some (base, cs3)
      match step3 with
      | none => none
      | some (v, r) => some ((if p0.1 then -v else v), r)

mutual

/-- One JSON value, fuel-bounded recursive descent (fuel only bounds nesting;
`parseJson` supplies more fuel than any input can consume). -/
def parseValue : Nat → List Char → Option (JsonVal × List Char)
  | 0, _ => none
  | fuel + 1, cs =>
    match skipWs cs with
    | '\x7b' :: rest => parseObjRest fuel (skipWs rest)
    | '[' :: rest => parseArrRest fuel (skipWs rest)
    | '"' :: rest => (parseStringChars rest).map fun p => (.str (String.mk p.1), p.2)
    | 't' :: 'r' :: 'u' :: 'e' :: rest => some (.bool true, rest)
    | 'f' :: 'a' :: 'l' :: 's' :: 'e' :: rest => some (.bool false, rest)
    | 'n' :: 'u' :: 'l' :: 'l' :: rest => some (.null, rest)
    | rest => (parseNumber rest).map fun p => (.num p.1, p.2)

/-- Object body after the opening brace (leading whitespace consumed). -/
def parseObjRest : Nat → List Char → Option (JsonVal × List Char)
  | 0, _ => none
  | fuel + 1, cs =>
    match cs with
    | '\x7d' :: rest => some (.obj [], rest)
    | _ => parseMembers fuel cs []

/-- Comma-separated `"key": value` members of an object. -/
def parseMembers : Nat → List Char → List (String × JsonVal) →
    Option (JsonVal × List Char)
  | 0, _, _ => none
  | fuel + 1, cs, acc =>
    match skipWs cs with
    | '"' :: rest =>
      match parseStringChars rest with
      | none => none
      | some (kcs, rest2) =>
        match skipWs rest2 with
        | ':' :: rest3 =>
          match parseValue fuel rest3 with
          | none => none
          | some (v, rest4) =>
            let acc2 := insertField acc (String.mk kcs) v
            match skipWs rest4 with
            | ',' :: rest5 => parseMembers fuel rest5 acc2
            | '\x7d' :: rest5 => some (.obj acc2, rest5)
            | _ => none
        | _ => none
    | _ => none

/-- Array body after the opening bracket (leading whitespace consumed). -/
def parseArrRest : Nat → List Char → Option (JsonVal × List Char)
  | 0, _ => none
  | fuel + 1, cs =>
    match cs with
    | ']' :: rest => some (.arr [], rest)
    | _ => parseElements fuel cs []

/-- Comma-separated elements of an array. -/
def parseElements : Nat → List Char → List JsonVal → Option (JsonVal × List Char)
  | 0, _, _ => none
  | fuel + 1, cs, acc =>
    match parseValue fuel cs with
    | none => none
    | some (v, rest) =>
      match skipWs rest with
      | ',' :: rest2 => parseElements fuel rest2 (acc ++ [v])
      | ']' :: rest2 => some (.arr (acc ++ [v]), rest2)
      | _ => none

end

/-- Model of Python `json.loads`: one JSON document, surrounding whitespace
allowed, nothing after the value. -/
def parseJson (s : String) : Option JsonVal :=
  match parseValue (s.length + 2) s.data with
  | some (v, rest) => if (skipWs rest).isEmpty then some v else none
  | none => none

/-- The ASCII whitespace stripped by Python `str.strip()` (the full Python set
also has Unicode spaces, which never occur in this repository). -/
def isPyWs (c : Char) : Bool :=
  c = ' ' || c = '\t' || c = '\n' || c = '\r' || c = '\x0b' || c = '\x0c'

/-- Python `s.strip()`. -/
def pyStrip (s : String) : String :=
  String.mk (((s.data.dropWhile isPyWs).reverse.dropWhile isPyWs).reverse)

/-- Python `s.lower()` (ASCII case folding; the fence tokens are ASCII). -/
def pyLower (s : String) : String := String.mk (s.data.map Char.toLower)

/-- Python `s.startswith(t)`. -/
def pyStartsWith (s t : String) : Bool := t.data.isPrefixOf s.data

/-- Python `s.endswith(t)`. -/
def pyEndsWith (s t : String) : Bool := t.data.reverse.isPrefixOf s.data.reverse

/-- Python `s[n:]` (slicing by code point, as `str` slicing does). -/
def pyDrop (s : String) (n : Nat) : String := String.mk (s.data.drop n)

/-- Python `s[:-n]`. -/
def pyDropRight (s : String) (n : Nat) : String :=
  String.mk (s.data.take (s.data.length - n))

/-- The response clean-up in `LLMManager.generate_structured_output`
(llm.py lines 248-256): `response.strip()`, then drop a leading
` ```json ` token (checked case-insensitively, sliced `[7:]`), then drop a
trailing ` ``` ` token (checked case-insensitively, sliced `[:-3]`). -/
def stripFences (response : String) : String :=
  let r := pyStrip response
  let r1 := if pyStartsWith (pyLower r) "```json" then pyDrop r 7 else r
  if pyEndsWith (pyLower r1) "```" then pyDropRight r1 3 else r1

/-- Errors raised by the gateway (`llm.py`): `noProvider` is the
`ValueError("No provider available...")`, `providerFailed` a provider-call
exception re-raised to the caller (named `ProviderCallFailed` by the spec), and
`schemaParse` the `ValueError("LLM response could not be parsed as JSON")`
whose chained `JSONDecodeError` carries the (stripped) response text
(named `SchemaParseError` by the spec). -/
inductive GatewayErr where
  | noProvider (requested : Option String)
  | providerFailed (msg : String)
  | schemaParse (text : String)

/-- The gateway state: the initialized providers (name, together with the
outcome its `generate_text` produces when invoked — an exception message or
the generated text) and the name of the default provider chosen at startup. -/
structure LLMManager where
  providers : List (String × Except String String)
  default_provider_name : String

/-- Model of `LLMManager._get_provider` (llm.py lines 233-236): a truthy requested name
that is a key of `providers` selects that provider; anything else falls back
to `providers.get(default_provider_name)`. -/
def get_provider (m : LLMManager) (provider_name : Option String) :
    Option (String × Except String String) :=
  let req : Option (String × Except String String) :=
    match provider_name with
    | some n => if n = "" then none else (List.lookup n m.providers).map fun r => (n, r)
    | none => none
  match req with
  | some p => some p
  | none =>
    (List.lookup m.default_provider_name m.providers).map
      fun r => (m.default_provider_name, r)

/-- Model of `LLMManager.generate_text` (llm.py lines 218-231). Returns the result
together with the list of provider names invoked, in call order: the selected
provider; then, only when it failed and is not the default, the single
fallback call to the default provider, whose own outcome (text or exception)
is returned as is. -/
def generate_text (m : LLMManager) (requested : Option String) :
    Except GatewayErr String × List String :=
  match get_provider m requested with
  | none => (.error (.noProvider requested), [])
  | some (pname, res) =>
    match res with
    | .ok text => (.ok text, [pname])
    | .error msg =>
      if pname ≠ m.default_provider_name then
        match get_provider m none with
        | some (dname, dres) => (dres.mapError GatewayErr.providerFailed, [pname, dname])
        | none => (.error (.providerFailed msg), [pname])
      else
        (.error (.providerFailed msg), [pname])

/-- Model of `LLMManager.generate_structured_output` (llm.py lines 238-263), with the
invocation trace. The selected provider is called once; an exception from it
is logged and re-raised (no fallback). On success the response is stripped of
code fences and parsed as JSON; parse failure raises the schema-parse error. -/
def generate_structured_output (m : LLMManager) (requested : Option String) :
    Except GatewayErr JsonVal × List String :=
  match get_provider m requested with
  | none => (.error (.noProvider requested), [])
  | some (pname, res) =>
    match res with
    | .error msg => (.error (.providerFailed msg), [pname])
    | .ok text =>
      let stripped := stripFences text
      match parseJson stripped with
      | some j => (.ok j, [pname])
      | none => (.error (.schemaParse stripped), [pname])

/-- A `MemoryItem` (interfaces.py lines 8-19). The `id` is the fresh
`uuid.uuid4()` generated by `add_to_short_term`. -/
structure MemoryItem where
  id : Nat
  content : List (String × Val)
  source : String
  timestamp : Nat
  memory_type : String
  confidence : ℚ
  validation_count : Int
  tags : List Val
  metadata : List (String × Val)

/-- Model of `memory_item.__dict__`: the record as serialized to the store and as seen
by `_matches_query`. Note the top-level `id` is the own UUID object of
the memory record — the id string of an opinion lives inside `content`. -/
def MemoryItem.toDict (m : MemoryItem) : List (String × Val) :=
  [("id", .uuid m.id), ("content", .dict m.content), ("source", .str m.source),
   ("timestamp", .dt m.timestamp), ("memory_type", .str m.memory_type),
   ("confidence", .num m.confidence), ("validation_count", .int m.validation_count),
   ("tags", .list m.tags), ("metadata", .dict m.metadata)]

/-- A cache key: `st n` is the string `st_memory:` + `str(n)`, `core n` the
string `core_memory:` + `str(n)`. The two pools are disjoint and ids render
injectively, so the f-string keys of `memory.py` are exactly this type. -/
inductive StoreKey where
  | st (n : Nat)
  | core (n : Nat)
deriving DecidableEq

/-- Whether a key lies in the short-term pool (its string starts with
`st_memory:`). -/
def StoreKey.isSt : StoreKey → Bool
  | .st _ => true
  | .core _ => false

/-- Whether a key lies in the core pool (its string starts with
`core_memory:`). -/
def StoreKey.isCore : StoreKey → Bool
  | .st _ => false
  | .core _ => true

/-- The keyed store plus the fresh-uuid source: `store` maps cache keys to the
stored records (insertion order = `scan` order), `nextId` models the stream of
`uuid.uuid4()` values (each draw is fresh, so all drawn ids are distinct). -/
structure MemState where
  store : List (StoreKey × MemoryItem)
  nextId : Nat

/-- Model of `cache.set`: overwrite the value at a key, or append a fresh key. -/
def setKey (store : List (StoreKey × MemoryItem)) (k : StoreKey) (item : MemoryItem) :
    List (StoreKey × MemoryItem) :=
  match store with
  | [] => [(k, item)]
  | (k0, v0) :: rest =>
    if k0 = k then (k, item) :: rest else (k0, v0) :: setKey rest k item

/-- Model of `cache.delete` (keys are unique; removing every occurrence of the key is
the same operation). -/
def deleteKey (store : List (StoreKey × MemoryItem)) (k : StoreKey) :
    List (StoreKey × MemoryItem) :=
  match store with
  | [] => []
  | (k0, v0) :: rest => if k0 = k then deleteKey rest k else (k0, v0) :: deleteKey rest k

/-- Model of `cache.get`. -/
def getKey (store : List (StoreKey × MemoryItem)) (k : StoreKey) : Option MemoryItem :=
  match store with
  | [] => none
  | (k0, v0) :: rest => if k0 = k then some v0 else getKey rest k

/-- Model of `MemorySystem.add_to_short_term` (memory.py lines 16-41): builds a fresh
record (`confidence=0`, `validation_count=0`, `memory_type="short_term"`) and
stores it under the short-term key for its fresh uuid. -/
def add_to_short_term (st : MemState) (content : List (String × Val))
    (source : String) (tags : List Val) (now : Nat) : MemoryItem × MemState :=
  let item : MemoryItem := {
    id := st.nextId, content := content, source := source, timestamp := now,
    memory_type := "short_term", confidence := 0, validation_count := 0,
    tags := tags, metadata := [] }
  (item, { store := setKey st.store (.st item.id) item, nextId := st.nextId + 1 })

/-- Model of `MemorySystem.move_to_core` (memory.py lines 43-61): retag as `"core"`,
delete the short-term entry, write the core entry. -/
def move_to_core (st : MemState) (memory_item : MemoryItem) : Bool × MemState :=
  let item := { memory_item with memory_type := "core" }
  let s1 := deleteKey st.store (.st item.id)
  let s2 := setKey s1 (.core item.id) item
  (true, { st with store := s2 })

/-- Python `x in container` as used by `_matches_query` (`container` is the
field of the record). List membership is by `==`; a `str` container tests for a
substring; a dict container tests key membership. Containers on which Python
`in` raises `TypeError` are modelled as a non-match (no repository query
reaches them). -/
def inVal (x container : Val) : Bool :=
  match container with
  | .list xs => xs.any fun el => Val.beq el x
  | .str s =>
    match x with
    | .str t => (List.range (s.length + 1)).any fun i => (s.drop i).startsWith t
    | _ => false
  | .dict fields =>
    match x with
    | .str k => fields.any fun p => p.1 == k
    | _ => false
  | _ => false

/-- Model of `MemorySystem._matches_query` (memory.py lines 97-108): every queried key
must be present in the `__dict__` of the record; a list-valued query matches by
overlap, any other value by equality. -/
def matches_query (memory_data query : List (String × Val)) : Bool :=
  query.all fun kv =>
    match getVal memory_data kv.1 with
    | none => false
    | some mv =>
      match kv.2 with
      | .list vs => vs.any fun v => inVal v mv
      | v => Val.beq mv v

/-- The cache-key pools scanned for a given `memory_type` (memory.py lines
71-78): the short-term and/or the core pool, as key predicates. -/
def tierFilters (memory_type : String) : List (StoreKey → Bool) :=
  (if memory_type == "all" || memory_type == "short_term" then [StoreKey.isSt] else []) ++
  (if memory_type == "all" || memory_type == "core" then [StoreKey.isCore] else [])

/-- Model of `cache.scan` + per-key `get`: the stored entries whose key lies in the
given pool, in insertion order (keys are unique). -/
def scanEntries (store : List (StoreKey × MemoryItem)) (pool : StoreKey → Bool) :
    List (StoreKey × MemoryItem) :=
  store.filter fun p => pool p.1

/-- Model of `MemorySystem.retrieve_memory` (memory.py lines 63-95): scan the selected
tiers, keep the records matching the query, stop at `limit` (collecting with
early break and then truncating is the same as truncating the full match
list). -/
def retrieve_memory (st : MemState) (query : List (String × Val))
    (memory_type : String) (limit : Nat) : List MemoryItem :=
  let found := (tierFilters memory_type).flatMap fun pool =>
    ((scanEntries st.store pool).map Prod.snd).filter fun item =>
      matches_query item.toDict query
  found.take limit

/-- The keys of the core tier in a state — used to state that nothing reaches
core memory. -/
def coreKeys (st : MemState) : List StoreKey :=
  (st.store.map Prod.fst).filter StoreKey.isCore

/-- An `Opinion` (interfaces.py lines 31-42). -/
structure Opinion where
  id : Nat
  topic : String
  belief : String
  confidence : ℚ
  evidence : List Val
  formed_at : Nat
  last_updated : Nat
  validation_count : Int
  metadata : List (String × Val)

/-- Model of `opinion.__dict__` (the raw dataclass dict: `id` is the UUID object). -/
def Opinion.toDict (o : Opinion) : List (String × Val) :=
  [("id", .uuid o.id), ("topic", .str o.topic), ("belief", .str o.belief),
   ("confidence", .num o.confidence), ("evidence", .list o.evidence),
   ("formed_at", .dt o.formed_at), ("last_updated", .dt o.last_updated),
   ("validation_count", .int o.validation_count), ("metadata", .dict o.metadata)]

/-- The content stored for an opinion: `{**opinion.__dict__, "id": str(opinion.id)}`
(opinion.py lines 62-66 and 112-115) — the dataclass dict with the id replaced
by its string form. -/
def Opinion.toContent (o : Opinion) : List (String × Val) :=
  [("id", .str (toString o.id)), ("topic", .str o.topic), ("belief", .str o.belief),
   ("confidence", .num o.confidence), ("evidence", .list o.evidence),
   ("formed_at", .dt o.formed_at), ("last_updated", .dt o.last_updated),
   ("validation_count", .int o.validation_count), ("metadata", .dict o.metadata)]

/-- Value of a decimal digit. -/
def charDigit (c : Char) : Option Nat :=
  if '0' ≤ c ∧ c ≤ '9' then some (c.toNat - '0'.toNat) else none

/-- Accumulator pass of `strToNat`. -/
def strToNatAux : List Char → Nat → Option Nat
  | [], acc => some acc
  | c :: rest, acc =>
    match charDigit c with
    | some d => strToNatAux rest (acc * 10 + d)
    | none => none

/-- Recover the modelled uuid from its `str(...)` rendering (the inverse of
`toString`); `uuid.UUID(s)` raises `ValueError` on anything else (`none`). -/
def strToNat (s : String) : Option Nat :=
  match s.data with
  | [] => none
  | cs => strToNatAux cs 0

/-- Model of `memory_content["id"] = uuid.UUID(memory_content["id"])` followed by
`Opinion(**memory_content)` (opinion.py lines 92-95), for snapshots of the
shape the engine itself writes. Any other stored shape makes Python raise
(`ValueError` from the UUID conversion, `TypeError` from the dataclass call
or from the later arithmetic); those are all modelled as `none`. -/
def contentToOpinion : List (String × Val) → Option Opinion
  | [("id", .str ids), ("topic", .str topic), ("belief", .str belief),
     ("confidence", .num conf), ("evidence", .list evs), ("formed_at", .dt fa),
     ("last_updated", .dt lu), ("validation_count", .int vc),
     ("metadata", .dict md)] =>
    (strToNat ids).map fun idn =>
      { id := idn, topic := topic, belief := belief, confidence := conf,
        evidence := evs, formed_at := fa, last_updated := lu,
        validation_count := vc, metadata := md }
  | _ => none

/-- Values usable as numbers by Python float arithmetic (`bool` is an int in
Python). -/
def pyNum : Val → Option ℚ
  | .num q => some q
  | .int n => some (n : ℚ)
  | .bool b => some (if b then 1 else 0)
  | _ => none

/-- Model of `OpinionSystem._calculate_confidence` (opinion.py lines 160-174): start at
`0.5`, overwritten by `analysis_result["confidence"]` when that key exists;
multiplied by `data_quality_score` only when that value is truthy (a
present-but-zero score is skipped by the truthiness test in the source); clamped to
`[0,1]`. `none` models the `TypeError` Python raises on non-numeric values. -/
def calculate_confidence (analysis_result : List (String × Val)) : Option ℚ :=
  let cval := getValD analysis_result "confidence" (.num 0.5)
  let dqs := getValD analysis_result "data_quality_score" .none
  match pyNum cval with
  | none => none
  | some c =>
    if dqs.truthy then
      match pyNum dqs with
      | none => none
      | some q => some (clamp01 (c * q))
    else some (clamp01 c)

/-- Model of `evidence.get("matches_belief", False)` truthiness, for one evidence dict. -/
def matchesBelief (e : List (String × Val)) : Bool :=
  (getValD e "matches_belief" (.bool false)).truthy

/-- Model of `OpinionSystem._recalculate_confidence` (opinion.py lines 176-197):
multiply by the validation boost `1 + (validation_count - 1) * 0.1`, then by
`1.1` or `0.9` per evidence item in list order, then clamp to `[0,1]`. -/
def recalculate_confidence (current_confidence : ℚ) (validation_count : Int)
    (new_evidence : List (List (String × Val))) : ℚ :=
  let c := current_confidence * (1 + ((validation_count : ℚ) - 1) * 0.1)
  let c := new_evidence.foldl
    (fun acc e => if matchesBelief e then acc * 1.1 else acc * 0.9) c
  clamp01 c

/-- Model of `context.get("current_symbols", [])` as spread into the tag list. -/
def currentSymbols (context : List (String × Val)) : List Val :=
  match getVal context "current_symbols" with
  | some (.list xs) => xs
  | _ => []

/-- Model of `OpinionSystem.form_opinion` (opinion.py lines 19-74). The gateway-generated
belief text is the `belief` parameter. The opinion gets a fresh uuid; it is
persisted to the short-term tier only when its confidence reaches the
`min_confidence = 0.6` threshold (store failures are swallowed in the source
and cannot occur in the model). `none` models a `TypeError` escaping from
`_calculate_confidence`. -/
def form_opinion (st : MemState) (topic : String)
    (analysis_result : List (String × Val)) (context : List (String × Val))
    (belief : String) (now : Nat) : Option (Opinion × MemState) :=
  match calculate_confidence analysis_result with
  | none => none
  | some confidence =>
    let opinion : Opinion := {
      id := st.nextId, topic := topic, belief := belief, confidence := confidence,
      evidence := [.dict [("type", .str "analysis_result"),
                          ("content", .dict analysis_result),
                          ("timestamp", .str (isoformat now))]],
      formed_at := now, last_updated := now, validation_count := 1,
      metadata := [("context", .dict context), ("source", .str "initial_analysis")] }
    let st1 : MemState := { st with nextId := st.nextId + 1 }
    if confidence ≥ 0.6 then
      let tags := Val.str topic :: currentSymbols context
      some (opinion, (add_to_short_term st1 opinion.toContent "opinion_formation" tags now).2)
    else
      some (opinion, st1)

/-- The state of the `content` dict of the retrieved record at the time
`move_to_core(opinions[0])` runs (opinion.py lines 92-126): the id string was
replaced by the UUID object, and the evidence list — shared by aliasing with
`current_opinion.evidence` — has been extended with the new evidence; the
scalar fields `confidence`, `validation_count` and `last_updated` were rebound
on the Opinion object only, so the dict keeps their pre-update values. -/
def mutatedContent (c : List (String × Val)) (oid : Nat)
    (new_evidence : List (List (String × Val))) : List (String × Val) :=
  match getVal (setVal c "id" (.uuid oid)) "evidence" with
  | some (.list evs0) =>
    setVal (setVal c "id" (.uuid oid)) "evidence"
      (.list (evs0 ++ new_evidence.map .dict))
  | _ => setVal c "id" (.uuid oid)

/-- Model of `OpinionSystem.update_opinion` (opinion.py lines 76-129) from the point
where `opinions[0] = mem` has been retrieved. Returns the updated Opinion,
the resulting state, and the list of arguments passed to `move_to_core`
(empty when the promotion condition fails). The updated snapshot is written
through `add_to_short_term` — i.e. as a new record under a fresh uuid. -/
def update_opinion_body (st : MemState) (mem : MemoryItem)
    (new_evidence : List (List (String × Val))) (now : Nat) :
    Except String (Opinion × MemState × List MemoryItem) :=
  match contentToOpinion mem.content with
  | none => .error "stored snapshot does not convert back to an Opinion"
  | some current0 =>
    let current1 := { current0 with
      evidence := current0.evidence ++ new_evidence.map Val.dict,
      validation_count := current0.validation_count + 1,
      last_updated := now }
    let new_confidence :=
      recalculate_confidence current1.confidence current1.validation_count new_evidence
    let current := { current1 with confidence := new_confidence }
    let st1 := (add_to_short_term st current.toContent "opinion_update"
      [.str current.topic] now).2
    let promoted := { mem with content := mutatedContent mem.content current.id new_evidence }
    if new_confidence ≥ 0.8 ∧ current.validation_count ≥ 3 then
      .ok (current, (move_to_core st1 promoted).2, [promoted])
    else
      .ok (current, st1, [])

/-- Model of `OpinionSystem.update_opinion` (opinion.py lines 76-129): load the stored
snapshot matching `{"id": str(opinion_id)}` over both tiers with `limit=1`;
raise `ValueError` (named `NotFound` by the spec) when nothing matches; otherwise run
the update on `opinions[0]`. -/
def update_opinion (st : MemState) (opinion_id : Nat)
    (new_evidence : List (List (String × Val))) (now : Nat) :
    Except String (Opinion × MemState × List MemoryItem) :=
  match retrieve_memory st [("id", .str (toString opinion_id))] "all" 1 with
  | [] => .error ("Opinion " ++ toString opinion_id ++ " not found")
  | mem :: _ => update_opinion_body st mem new_evidence now

/-- Model of `LearningSystem.learn_from_feedback` (learning.py lines 26-43): append one
short-term record capturing the feedback; always succeeds. -/
def learn_from_feedback (st : MemState) (data_context outcome : List (String × Val))
    (previous_opinion : Option Opinion) (now : Nat) : MemState :=
  let prevVal : Val := match previous_opinion with
    | some o => .dict o.toDict
    | none => .none
  let content := [("data_context", .dict data_context), ("outcome", .dict outcome),
    ("previous_opinion", prevVal), ("timestamp", .str (isoformat now))]
  let tags := [Val.str "learning", getValD data_context "symbol" (.str "unknown")]
  (add_to_short_term st content "feedback_learning" tags now).2

/-- The methods `learning.py` defines on `LearningSystem`. -/
def LearningSystem.methods : List String :=
  ["identify_patterns", "validate_pattern", "learn_from_feedback"]

/-- The attribute lookup performed by `self.learning.learn_from_outcome(...)`
(brain.py line 194): Python raises `AttributeError` when the class defines no
method of that name. -/
def lookupLearnFromOutcome : Except String Unit :=
  if "learn_from_outcome" ∈ LearningSystem.methods then .ok ()
  else .error "AttributeError: LearningSystem has no attribute learn_from_outcome"

/-- Model of `Opinion(**previous_opinion_data)` (brain.py line 185) for a dict of the
`__dict__` shape (raw UUID id); other shapes raise `TypeError` (`none`). -/
def dictToOpinion : List (String × Val) → Option Opinion
  | [("id", .uuid idn), ("topic", .str topic), ("belief", .str belief),
     ("confidence", .num conf), ("evidence", .list evs), ("formed_at", .dt fa),
     ("last_updated", .dt lu), ("validation_count", .int vc),
     ("metadata", .dict md)] =>
    some
      { id := idn, topic := topic, belief := belief, confidence := conf,
        evidence := evs, formed_at := fa, last_updated := lu,
        validation_count := vc, metadata := md }
  | _ => none

/-- Model of the line `previous_opinion_data = interaction_data.get("chaetra_response", {}).get("opinion")`
(brain.py line 184): raises `AttributeError` when the `chaetra_response` value
is not a dict. -/
def prevOpinionData (interaction_data : List (String × Val)) : Except String Val :=
  match getValD interaction_data "chaetra_response" (.dict []) with
  | .dict d => .ok (getValD d "opinion" Val.none)
  | _ => .error "AttributeError: chaetra_response value has no attribute get"

/-- Model of `Opinion(**previous_opinion_data) if previous_opinion_data else None`
(brain.py line 185). -/
def decodePrevOpinion (prevData : Val) : Except String (Option Opinion) :=
  if prevData.truthy then
    match prevData with
    | .dict d =>
      match dictToOpinion d with
      | some o => .ok (some o)
      | none => .error "TypeError: Opinion of previous_opinion_data"
    | _ => .error "TypeError: Opinion of previous_opinion_data"
  else .ok Option.none

/-- The `interaction_data.get("request_context", {}).get("symbol")` chain in
`data_context_for_learning` (brain.py line 191): raises when the
`request_context` value is not a dict. -/
def dataContextOk (interaction_data : List (String × Val)) : Except String Unit :=
  match getValD interaction_data "request_context" (.dict []) with
  | .dict _ => .ok ()
  | _ => .error "AttributeError: request_context value has no attribute get"

/-- Model of `CHAETRA.learn_from_interaction_outcome` (brain.py lines 174-211). The
result pairs the store state reached with the call outcome (`.error` carries
the raised Python exception). In source order: the prior opinion is decoded
from `interaction_data`, `data_context_for_learning` is built, and then
`self.learning.learn_from_outcome(...)` is invoked — an attribute
`LearningSystem` does not define, so the method raises there, before any
store write, before the forwarding to `learn_from_feedback` and before the
`update_opinion` call further down in the source. -/
def learn_from_interaction_outcome (st : MemState)
    (interaction_data _actual_outcome : List (String × Val)) (_now : Nat) :
    MemState × Except String Unit :=
  match prevOpinionData interaction_data with
  | .error e => (st, .error e)
  | .ok prevData =>
    match decodePrevOpinion prevData with
    | .error e => (st, .error e)
    | .ok _previous_opinion =>
      match dataContextOk interaction_data with
      | .error e => (st, .error e)
      | .ok _ => (st, lookupLearnFromOutcome)

/-- One engine call in a `form_opinion`/`update_opinion` call sequence
(the claim C4 phrase "every sequence of form_opinion and update_opinion calls"). -/
inductive Cmd where
  | form (topic : String) (analysis_result context : List (String × Val))
      (belief : String) (now : Nat)
  | update (opinion_id : Nat) (new_evidence : List (List (String × Val))) (now : Nat)

/-- Run a sequence of engine calls from a state, collecting every `Opinion`
value returned to the caller (a call that raises returns none and, in this
code, leaves the store unchanged). -/
def runCmds (st : MemState) : List Cmd → MemState × List Opinion
  | [] => (st, [])
  | .form topic ar ctx belief now :: rest =>
    match form_opinion st topic ar ctx belief now with
    | some (o, st1) =>
      let p := runCmds st1 rest
      (p.1, o :: p.2)
    | none => runCmds st rest
  | .update oid evs now :: rest =>
    match update_opinion st oid evs now with
    | .ok (o, st1, _) =>
      let p := runCmds st1 rest
      (p.1, o :: p.2)
    | .error _ => runCmds st rest

/-! ## Concrete scenario: the revision-arithmetic example of the spec

A stored opinion snapshot with `confidence = 0.675`, `validation_count = 1`,
updated twice with a single supporting evidence item. -/

/-- One evidence item with `matches_belief = True`. -/
def trueEvidence : List (String × Val) := [("matches_belief", .bool true)]

/-- The opinion of the revision example before any update. -/
def demoOpinion : Opinion :=
  { id := 7, topic := "AAPL", belief := "bullish", confidence := 0.675,
    evidence := [], formed_at := 0, last_updated := 0, validation_count := 1,
    metadata := [] }

/-- The short-term record holding the snapshot of `demoOpinion`. -/
def demoItem : MemoryItem :=
  { id := 3, content := demoOpinion.toContent, source := "opinion_formation",
    timestamp := 0, memory_type := "short_term", confidence := 0,
    validation_count := 0, tags := [.str "AAPL"], metadata := [] }

/-- A store holding only that record. -/
def demoState : MemState := { store := [(.st 3, demoItem)], nextId := 10 }

/-- Observation helper: the confidence and validation count of an update
result. -/
def confCount (r : Except String (Opinion × MemState × List MemoryItem)) :
    Option (ℚ × Int) :=
  match r with
  | .ok (o, _, _) => some (o.confidence, o.validation_count)
  | .error _ => none

/-- Unfolding of `update_opinion_body` once the snapshot conversion is known. -/
theorem update_opinion_body_eq (st : MemState) (mem : MemoryItem) (cur : Opinion)
    (evs : List (List (String × Val))) (now : Nat)
    (h : contentToOpinion mem.content = some cur) :
    update_opinion_body st mem evs now =
      (let cur1 : Opinion :=
         { cur with evidence := cur.evidence ++ evs.map Val.dict,
                    validation_count := cur.validation_count + 1, last_updated := now }
       let nc := recalculate_confidence cur.confidence cur1.validation_count evs
       let cur2 : Opinion := { cur1 with confidence := nc }
       let st1 := (add_to_short_term st cur2.toContent "opinion_update" [.str cur2.topic] now).2
       let promoted : MemoryItem := { mem with content := mutatedContent mem.content cur2.id evs }
       if nc ≥ 0.8 ∧ cur2.validation_count ≥ 3 then
         .ok (cur2, (move_to_core st1 promoted).2, [promoted])
       else .ok (cur2, st1, [])) := by
  unfold update_opinion_body
  rw [h]

/-- First demo revision: `0.675 * 1.1 * 1.1 = 0.81675`. -/
theorem recalc1 : recalculate_confidence 0.675 2 [trueEvidence] = 0.81675 := by
  unfold recalculate_confidence
  simp only [List.foldl_cons, List.foldl_nil,
    show matchesBelief trueEvidence = true from rfl, if_true]
  unfold clamp01
  rw [max_eq_left (by norm_num), min_eq_left (by norm_num)]
  norm_num

/-- Second demo revision: `0.81675 * 1.2 * 1.1 = 1.07811`, clamped to `1`. -/
theorem recalc2 : recalculate_confidence 0.81675 3 [trueEvidence] = 1 := by
  unfold recalculate_confidence
  simp only [List.foldl_cons, List.foldl_nil,
    show matchesBelief trueEvidence = true from rfl, if_true]
  unfold clamp01
  rw [max_eq_left (by norm_num), min_eq_right (by norm_num)]

/-- The opinion after the first demo update. -/
def demoOpinion1 : Opinion :=
  { demoOpinion with
    confidence := 0.81675, validation_count := 2,
    evidence := [.dict trueEvidence], last_updated := 1 }

/-- The new short-term record written by the first demo update (fresh memory
uuid 10, the next fresh id of the state). -/
def newItem1 : MemoryItem :=
  { id := 10, content := demoOpinion1.toContent, source := "opinion_update",
    timestamp := 1, memory_type := "short_term", confidence := 0,
    validation_count := 0, tags := [.str "AAPL"], metadata := [] }

/-- The state after the first demo update: the pre-update record is still
stored, the updated snapshot lives in a second record under a fresh key. -/
def demoStateAfter1 : MemState :=
  { store := [(.st 3, demoItem), (.st 10, newItem1)], nextId := 11 }

/-- The first demo update in full: validation 2, confidence 0.81675, no
promotion (validation count still below 3). -/
theorem demo_update1 :
    update_opinion_body demoState demoItem [trueEvidence] 1 =
      .ok (demoOpinion1, demoStateAfter1, []) := by
  rw [update_opinion_body_eq demoState demoItem demoOpinion [trueEvidence] 1 rfl]
  simp only [demoOpinion]
  rw [if_neg (by simp)]
  simp [demoOpinion1, demoStateAfter1, newItem1, demoItem, demoState, demoOpinion,
    Opinion.toContent, add_to_short_term, setKey, recalc1]

/-- The opinion after the second demo update: confidence clamped to 1,
three validations. -/
def demoOpinion2 : Opinion :=
  { demoOpinion1 with
    confidence := 1, validation_count := 3,
    evidence := [.dict trueEvidence, .dict trueEvidence], last_updated := 2 }

/-- The short-term record written by the second demo update. -/
def newItem2 : MemoryItem :=
  { id := 11, content := demoOpinion2.toContent, source := "opinion_update",
    timestamp := 2, memory_type := "short_term", confidence := 0,
    validation_count := 0, tags := [.str "AAPL"], metadata := [] }

/-- The record handed to `move_to_core` by the second demo update: the
retrieved record `newItem1`, its content mutated only through the id
conversion and the evidence-list aliasing. -/
def promotedItem1 : MemoryItem :=
  { newItem1 with content := mutatedContent newItem1.content 7 [trueEvidence] }

/-- The state after the second demo update. -/
def demoStateAfter2 : MemState :=
  { store := [(.st 3, demoItem), (.st 11, newItem2),
              (.core 10, { promotedItem1 with memory_type := "core" })],
    nextId := 12 }

/-- The second demo update in full: promotion fires, handing `move_to_core`
the pre-update record. -/
theorem demo_update2 :
    update_opinion_body demoStateAfter1 newItem1 [trueEvidence] 2 =
      .ok (demoOpinion2, demoStateAfter2, [promotedItem1]) := by
  rw [update_opinion_body_eq demoStateAfter1 newItem1 demoOpinion1 [trueEvidence] 2 rfl]
  simp only [demoOpinion1, demoOpinion]
  rw [if_pos (by simp only [Int.reduceAdd]; rw [recalc2]; norm_num)]
  simp [demoOpinion2, demoStateAfter2, newItem2, promotedItem1, newItem1,
    demoStateAfter1, demoItem, demoState, demoOpinion1, demoOpinion,
    Opinion.toContent, add_to_short_term, setKey, deleteKey, move_to_core,
    mutatedContent, setVal, getVal, recalc2]

/-- Folding the per-evidence factors from an initial confidence equals
multiplying by the product of the factors. -/
theorem foldl_evidence_mul (evs : List (List (String × Val))) (c : ℚ) :
    evs.foldl (fun acc e => if matchesBelief e then acc * 1.1 else acc * 0.9) c =
      c * (evs.map fun e => if matchesBelief e then (1.1 : ℚ) else 0.9).prod := by
  induction evs generalizing c with
  | nil => simp
  | cons e rest ih =>
    simp only [List.foldl_cons, List.map_cons, List.prod_cons]
    by_cases h : matchesBelief e
    · rw [if_pos h, ih, if_pos h]; ring
    · rw [if_neg h, ih, if_neg h]; ring

/-- C1: update_opinion revision arithmetic. Each call multiplies the stored
confidence by the post-increment validation boost `1 + (vc - 1) * 0.1`, then
by `1.1` or `0.9` per new-evidence item in list order, then clamps to `[0,1]`.
On the example of the spec (stored confidence 0.675, validation_count 1), one call
with a single supporting item yields validation_count 2 and confidence
`0.675 * 1.1 * 1.1 = 0.81675`; a second identical call yields
validation_count 3 and confidence `0.81675 * 1.2 * 1.1` clamped to `1`. -/
theorem C1_revision_arithmetic :
    (∀ (c : ℚ) (vc : Int) (evs : List (List (String × Val))),
      recalculate_confidence c vc evs =
        clamp01 (c * (1 + ((vc : ℚ) - 1) * 0.1) *
          (evs.map fun e => if matchesBelief e then (1.1 : ℚ) else 0.9).prod)) ∧
    confCount (update_opinion_body demoState demoItem [trueEvidence] 1) =
      some (0.81675, 2) ∧
    confCount (update_opinion_body demoStateAfter1 newItem1 [trueEvidence] 2) =
      some (1, 3) := by
  refine ⟨?_, ?_, ?_⟩
  · intro c vc evs
    unfold recalculate_confidence
    simp only [foldl_evidence_mul]
  · rw [demo_update1]; rfl
  · rw [demo_update2]; rfl

/-- No stored record ever matches the id query `update_opinion` issues: the
top-level `id` of a record is the own UUID object of the memory record, which never
equals a string. -/
theorem matches_query_id_str (item : MemoryItem) (s : String) :
    matches_query item.toDict [("id", .str s)] = false := by
  simp only [matches_query, List.all_cons, List.all_nil, Bool.and_true]
  have h : getVal item.toDict "id" = some (.uuid item.id) := rfl
  rw [h]
  rfl

/-- Calling `retrieve_memory` with the query `{"id": <string>}` returns nothing, in
every state, over every tier selection. -/
theorem retrieve_id_str_empty (st : MemState) (s mt : String) (lim : Nat) :
    retrieve_memory st [("id", .str s)] mt lim = [] := by
  unfold retrieve_memory
  have hfilter : ∀ l : List MemoryItem,
      (l.filter fun item => matches_query item.toDict [("id", .str s)]) = [] := by
    intro l
    induction l with
    | nil => rfl
    | cons a t ih => simp [List.filter_cons, matches_query_id_str, ih]
  have hflat : ∀ ps : List (StoreKey → Bool),
      (ps.flatMap fun pool =>
        ((scanEntries st.store pool).map Prod.snd).filter fun item =>
          matches_query item.toDict [("id", .str s)]) = [] := by
    intro ps
    induction ps with
    | nil => rfl
    | cons p t ih => simp [List.flatMap_cons, hfilter, ih]
  simp [hflat]

/-- The analysis payload of the formation example (`confidence` 0.675, above
the 0.6 storage threshold). -/
def demoAnalysis : List (String × Val) := [("confidence", .num 0.675)]

/-- The opinion `form_opinion` builds from `demoAnalysis` in the empty state. -/
def formedOpinion : Opinion :=
  { id := 0, topic := "AAPL", belief := "bullish", confidence := 0.675,
    evidence := [.dict [("type", .str "analysis_result"),
                        ("content", .dict demoAnalysis),
                        ("timestamp", .str (isoformat 0))]],
    formed_at := 0, last_updated := 0, validation_count := 1,
    metadata := [("context", .dict []), ("source", .str "initial_analysis")] }

/-- The short-term record `form_opinion` persists for `formedOpinion`
(memory uuid 1: the next fresh id after the uuid 0 of the opinion itself). -/
def formedItem : MemoryItem :=
  { id := 1, content := formedOpinion.toContent, source := "opinion_formation",
    timestamp := 0, memory_type := "short_term", confidence := 0,
    validation_count := 0, tags := [.str "AAPL"], metadata := [] }

/-- The state after the formation example. -/
def formedState : MemState := { store := [(.st 1, formedItem)], nextId := 2 }

/-- The formation example in full: confidence 0.675 ≥ 0.6, so the opinion is
persisted. -/
theorem demo_form :
    form_opinion ⟨[], 0⟩ "AAPL" demoAnalysis [] "bullish" 0 =
      some (formedOpinion, formedState) := by
  unfold form_opinion
  have hcalc : calculate_confidence demoAnalysis = some 0.675 := by
    have h1 : calculate_confidence demoAnalysis = some (clamp01 0.675) := rfl
    rw [h1]
    unfold clamp01
    rw [max_eq_left (by norm_num), min_eq_left (by norm_num)]
  rw [hcalc]
  simp only [Option.some.injEq]
  rw [if_pos (by norm_num)]
  simp [formedOpinion, formedState, formedItem, demoAnalysis, Opinion.toContent,
    add_to_short_term, setKey, currentSymbols, getVal, List.lookup]

/-- Lemma: `update_opinion` raises its not-found `ValueError` on every state and
every opinion id: the retrieval comes back empty unconditionally. -/
theorem update_opinion_always_errors (st : MemState) (oid : Nat)
    (evs : List (List (String × Val))) (now : Nat) :
    update_opinion st oid evs now =
      .error ("Opinion " ++ toString oid ++ " not found") := by
  unfold update_opinion
  rw [retrieve_id_str_empty]

/-- C2: `update_opinion` loads the stored snapshot by the query
`{"id": str(opinion_id)}` and raises `NotFound` when nothing matches — but
`_matches_query` compares the query against the own top-level fields of the record,
whose `id` is the fresh memory-record uuid (the opinion id string lives at
`content["id"]`), so the query never matches anything and `update_opinion`
raises unconditionally, even immediately after `form_opinion` persisted the
opinion. -/
theorem C2_update_notfound_bug :
    (∀ (st : MemState) (oid : Nat) (evs : List (List (String × Val))) (now : Nat),
        update_opinion st oid evs now =
          .error ("Opinion " ++ toString oid ++ " not found")) ∧
    form_opinion ⟨[], 0⟩ "AAPL" demoAnalysis [] "bullish" 0 =
      some (formedOpinion, formedState) ∧
    getKey formedState.store (.st formedItem.id) = some formedItem ∧
    getVal formedItem.content "id" = some (.str (toString formedOpinion.id)) ∧
    update_opinion formedState formedOpinion.id [trueEvidence] 1 =
      .error ("Opinion " ++ toString formedOpinion.id ++ " not found") := by
  exact ⟨update_opinion_always_errors, demo_form, rfl, rfl,
    update_opinion_always_errors formedState formedOpinion.id [trueEvidence] 1⟩


/-- Writing a short-term key leaves the core-tier key set unchanged. -/
theorem coreKeys_setKey_st (store : List (StoreKey × MemoryItem)) (n : Nat)
    (item : MemoryItem) :
    ((setKey store (.st n) item).map Prod.fst).filter StoreKey.isCore =
      (store.map Prod.fst).filter StoreKey.isCore := by
  induction store with
  | nil => simp [setKey, StoreKey.isCore]
  | cons p t ih =>
    obtain ⟨k0, v0⟩ := p
    by_cases h : k0 = StoreKey.st n
    · subst h; simp [setKey, StoreKey.isCore]
    · cases hk : StoreKey.isCore k0 <;>
        simp [setKey, h, List.filter_cons, hk, ih]

/-- C3: promotion threshold. Within an update, `move_to_core` is invoked
exactly when the recomputed opinion has confidence ≥ 0.8 and
validation_count ≥ 3; an update below the threshold leaves the core tier
unchanged, and `form_opinion` never touches the core tier. -/
theorem C3_promotion_threshold :
    (∀ st mem evs now o st' promoted,
        update_opinion_body st mem evs now = .ok (o, st', promoted) →
        (promoted ≠ [] ↔ (o.confidence ≥ 0.8 ∧ o.validation_count ≥ 3))) ∧
    (∀ st mem evs now o st' promoted,
        update_opinion_body st mem evs now = .ok (o, st', promoted) →
        promoted = [] → coreKeys st' = coreKeys st) ∧
    (∀ st topic ar ctx belief now o st',
        form_opinion st topic ar ctx belief now = some (o, st') →
        coreKeys st' = coreKeys st) := by
  refine ⟨?_, ?_, ?_⟩
  · intro st mem evs now o st' promoted h
    cases hc : contentToOpinion mem.content with
    | none =>
      unfold update_opinion_body at h
      rw [hc] at h
      exact absurd h (by simp)
    | some cur =>
      rw [update_opinion_body_eq st mem cur evs now hc] at h
      simp only [ge_iff_le] at h
      split at h
      next hcond =>
        simp only [Except.ok.injEq, Prod.mk.injEq] at h
        obtain ⟨ho, _, hprom⟩ := h
        subst ho
        rw [← hprom]
        simp only [ne_eq, List.cons_ne_nil, not_false_eq_true, true_iff]
        exact hcond
      next hcond =>
        simp only [Except.ok.injEq, Prod.mk.injEq] at h
        obtain ⟨ho, _, hprom⟩ := h
        subst ho
        rw [← hprom]
        simp only [ne_eq, not_true_eq_false, false_iff]
        exact hcond
  · intro st mem evs now o st' promoted h hempty
    cases hc : contentToOpinion mem.content with
    | none =>
      unfold update_opinion_body at h
      rw [hc] at h
      exact absurd h (by simp)
    | some cur =>
      rw [update_opinion_body_eq st mem cur evs now hc] at h
      simp only [ge_iff_le] at h
      split at h
      next =>
        simp only [Except.ok.injEq, Prod.mk.injEq] at h
        obtain ⟨_, _, hprom⟩ := h
        rw [← hprom] at hempty
        exact absurd hempty (by simp)
      next =>
        simp only [Except.ok.injEq, Prod.mk.injEq] at h
        obtain ⟨_, hst', _⟩ := h
        rw [← hst']
        unfold coreKeys add_to_short_term
        exact coreKeys_setKey_st st.store st.nextId _
  · intro st topic ar ctx belief now o st' h
    unfold form_opinion at h
    cases hc : calculate_confidence ar with
    | none => rw [hc] at h; exact absurd h (by simp)
    | some conf =>
      rw [hc] at h
      simp only [ge_iff_le] at h
      split at h
      next =>
        simp only [Option.some.injEq, Prod.mk.injEq] at h
        obtain ⟨_, hst'⟩ := h
        rw [← hst']
        unfold coreKeys add_to_short_term
        exact coreKeys_setKey_st _ _ _
      next =>
        simp only [Option.some.injEq, Prod.mk.injEq] at h
        obtain ⟨_, hst'⟩ := h
        rw [← hst']
        rfl

/-- Witness for C3 at the promoting demo update: the promotion fires and both
thresholds hold there. -/
theorem C3_promotion_threshold_witness :
    ([promotedItem1] ≠ ([] : List MemoryItem)) ∧
      (demoOpinion2.confidence ≥ 0.8 ∧ demoOpinion2.validation_count ≥ 3) := by
  have h := C3_promotion_threshold.1 demoStateAfter1 newItem1 [trueEvidence] 2
    demoOpinion2 demoStateAfter2 [promotedItem1] demo_update2
  exact ⟨by simp, h.mp (by simp)⟩

/-- Any confidence `_calculate_confidence` returns lies in `[0,1]` (both exits
clamp). -/
theorem calculate_confidence_bounds (ar : List (String × Val)) (q : ℚ)
    (h : calculate_confidence ar = some q) : 0 ≤ q ∧ q ≤ 1 := by
  simp only [calculate_confidence] at h
  split at h
  next => exact absurd h (by simp)
  next =>
    split at h
    next =>
      split at h
      next => exact absurd h (by simp)
      next =>
        simp only [Option.some.injEq] at h
        rw [← h]
        exact ⟨clamp01_nonneg _, clamp01_le_one _⟩
    next =>
      simp only [Option.some.injEq] at h
      rw [← h]
      exact ⟨clamp01_nonneg _, clamp01_le_one _⟩

/-- Lemma: `_recalculate_confidence` always lands in `[0,1]` (final clamp). -/
theorem recalculate_confidence_bounds (c : ℚ) (vc : Int)
    (evs : List (List (String × Val))) :
    0 ≤ recalculate_confidence c vc evs ∧ recalculate_confidence c vc evs ≤ 1 := by
  unfold recalculate_confidence
  exact ⟨clamp01_nonneg _, clamp01_le_one _⟩

/-- Any opinion `update_opinion_body` returns has confidence in `[0,1]`. -/
theorem update_body_confidence_bounds (st : MemState) (mem : MemoryItem)
    (evs : List (List (String × Val))) (now : Nat) (o : Opinion) (st' : MemState)
    (promoted : List MemoryItem)
    (h : update_opinion_body st mem evs now = .ok (o, st', promoted)) :
    0 ≤ o.confidence ∧ o.confidence ≤ 1 := by
  cases hc : contentToOpinion mem.content with
  | none =>
    unfold update_opinion_body at h
    rw [hc] at h
    exact absurd h (by simp)
  | some cur =>
    rw [update_opinion_body_eq st mem cur evs now hc] at h
    simp only [ge_iff_le] at h
    split at h <;>
    · simp only [Except.ok.injEq, Prod.mk.injEq] at h
      obtain ⟨ho, _, _⟩ := h
      subst ho
      exact recalculate_confidence_bounds _ _ _

/-- Any opinion `form_opinion` returns has confidence in `[0,1]`. -/
theorem form_confidence_bounds (st : MemState) (topic : String)
    (ar ctx : List (String × Val)) (belief : String) (now : Nat) (o : Opinion)
    (st' : MemState)
    (h : form_opinion st topic ar ctx belief now = some (o, st')) :
    0 ≤ o.confidence ∧ o.confidence ≤ 1 := by
  unfold form_opinion at h
  cases hc : calculate_confidence ar with
  | none => rw [hc] at h; exact absurd h (by simp)
  | some conf =>
    rw [hc] at h
    have hb := calculate_confidence_bounds ar conf hc
    simp only [ge_iff_le] at h
    split at h <;>
    · simp only [Option.some.injEq, Prod.mk.injEq] at h
      obtain ⟨ho, _⟩ := h
      subst ho
      exact hb

/-- The confidences of every `Opinion` value a call sequence returns. -/
def returnedConfidences (st : MemState) (cmds : List Cmd) : List ℚ :=
  (runCmds st cmds).2.map Opinion.confidence

/-- C4: confidence bounds. Over every sequence of `form_opinion` /
`update_opinion` calls, every returned opinion carries a confidence in
`[0,1]`; and the update path (from any retrieved snapshot) respects the same
bounds. -/
theorem C4_confidence_bounds :
    (∀ st cmds q, q ∈ returnedConfidences st cmds → 0 ≤ q ∧ q ≤ 1) ∧
    (∀ st mem evs now o st' promoted,
        update_opinion_body st mem evs now = .ok (o, st', promoted) →
        0 ≤ o.confidence ∧ o.confidence ≤ 1) := by
  constructor
  · intro st cmds
    induction cmds generalizing st with
    | nil => intro q hq; simp [returnedConfidences, runCmds] at hq
    | cons cmd rest ih =>
      intro q hq
      cases cmd with
      | form topic ar ctx belief now =>
        unfold returnedConfidences runCmds at hq
        cases hf : form_opinion st topic ar ctx belief now with
        | none =>
          rw [hf] at hq
          exact ih st q hq
        | some p =>
          obtain ⟨o, st1⟩ := p
          rw [hf] at hq
          simp only [List.map_cons, List.mem_cons] at hq
          rcases hq with hq | hq
          · subst hq
            exact form_confidence_bounds _ _ _ _ _ _ _ _ hf
          · exact ih st1 q hq
      | update oid evs now =>
        unfold returnedConfidences runCmds at hq
        rw [update_opinion_always_errors st oid evs now] at hq
        exact ih st q hq
  · intro st mem evs now o st' promoted h
    exact update_body_confidence_bounds st mem evs now o st' promoted h

/-- Witness for C4 on a one-call sequence: the single returned confidence is
0.675, inside the bounds. -/
theorem C4_confidence_bounds_witness : (0:ℚ) ≤ 0.675 ∧ (0.675:ℚ) ≤ 1 :=
  C4_confidence_bounds.1 ⟨[], 0⟩ [Cmd.form "AAPL" demoAnalysis [] "bullish" 0] 0.675
    (by simp [returnedConfidences, runCmds, demo_form, formedOpinion])

/-- The attribute lookup for `learn_from_outcome` fails: `learning.py` defines
no such method. -/
theorem lookupLearnFromOutcome_eq :
    lookupLearnFromOutcome =
      .error "AttributeError: LearningSystem has no attribute learn_from_outcome" := by
  simp [lookupLearnFromOutcome, LearningSystem.methods]

/-- C5: `learn_from_interaction_outcome` calls
`self.learning.learn_from_outcome(...)`, but `LearningSystem` defines only
`learn_from_feedback` — so every call raises (an `AttributeError` whenever the
input decoding gets that far) and writes nothing: neither the feedback record
nor any `update_opinion` effect is ever produced. `learn_from_feedback`
itself, the operation the call was meant to forward to, exists and appends
exactly one short-term record. -/
theorem C5_learn_from_outcome_missing :
    (∀ st interaction_data actual_outcome now,
        (learn_from_interaction_outcome st interaction_data actual_outcome now).1 = st ∧
        ∃ e, (learn_from_interaction_outcome st interaction_data actual_outcome now).2 =
          Except.error e) ∧
    (learn_from_interaction_outcome ⟨[], 0⟩ [] [] 0).2 =
      .error "AttributeError: LearningSystem has no attribute learn_from_outcome" ∧
    (∀ st dc outc prev now,
        (learn_from_feedback st dc outc prev now).store =
          setKey st.store (.st st.nextId)
            { id := st.nextId,
              content := [("data_context", .dict dc), ("outcome", .dict outc),
                ("previous_opinion",
                  match prev with | some o => .dict o.toDict | none => .none),
                ("timestamp", .str (isoformat now))],
              source := "feedback_learning", timestamp := now,
              memory_type := "short_term", confidence := 0, validation_count := 0,
              tags := [Val.str "learning", getValD dc "symbol" (.str "unknown")],
              metadata := [] }) := by
  refine ⟨?_, ?_, ?_⟩
  · intro st d a now
    unfold learn_from_interaction_outcome
    cases h1 : prevOpinionData d with
    | error e => simp [h1]
    | ok pd =>
      cases h2 : decodePrevOpinion pd with
      | error e => simp [h1, h2]
      | ok prev =>
        cases h3 : dataContextOk d with
        | error e => simp [h1, h2, h3]
        | ok u => simp [h1, h2, h3, lookupLearnFromOutcome_eq]
  · rw [show (learn_from_interaction_outcome ⟨[], 0⟩ [] [] 0).2 =
        lookupLearnFromOutcome from rfl, lookupLearnFromOutcome_eq]
  · intro st dc outc prev now
    rfl

/-- C6: gateway fallback. When the invoked provider fails and is not the
default, `generate_text` makes exactly one retry, against the default
provider, and returns the outcome of that call as is — so a default failure is
raised, not swallowed; when the failing provider is the default itself, no
retry is made and the failure is raised directly. The invocation trace shows
there is never more than one retry and never a fan-out. -/
theorem C6_generate_text_fallback (m : LLMManager) (requested : Option String)
    (pname msg : String) (dres : Except String String)
    (hdef : List.lookup m.default_provider_name m.providers = some dres)
    (hp : get_provider m requested = some (pname, .error msg)) :
    (pname ≠ m.default_provider_name →
      generate_text m requested =
        (dres.mapError GatewayErr.providerFailed, [pname, m.default_provider_name])) ∧
    (pname = m.default_provider_name →
      generate_text m requested = (.error (.providerFailed msg), [pname])) := by
  have hdefault : get_provider m none = some (m.default_provider_name, dres) := by
    unfold get_provider
    rw [hdef]
    rfl
  constructor
  · intro hne
    unfold generate_text
    rw [hp]
    simp [hne, hdefault]
  · intro heq
    unfold generate_text
    rw [hp]
    simp [heq]

/-- Witness for C6: a two-provider gateway whose non-default provider fails.
The one retry against the default is made (trace `["alt", "main"]`) and the
failure of the default itself is surfaced; with the default itself failing directly,
no retry happens (trace `["main"]`). -/
theorem C6_generate_text_fallback_witness :
    (generate_text
        { providers := [("alt", .error "boom"), ("main", .error "boom2")],
          default_provider_name := "main" } (some "alt") =
      (.error (.providerFailed "boom2"), ["alt", "main"])) ∧
    (generate_text
        { providers := [("alt", .error "boom"), ("main", .error "boom2")],
          default_provider_name := "main" } none =
      (.error (.providerFailed "boom2"), ["main"])) := by
  constructor
  · exact (C6_generate_text_fallback _ (some "alt") "alt" "boom" (.error "boom2")
      (by rfl) (by rfl)).1 (by decide)
  · exact (C6_generate_text_fallback _ none "main" "boom2" (.error "boom2")
      (by rfl) (by rfl)).2 (by rfl)

/-- A one-provider gateway whose provider returns the given text. -/
def mgrText (text : String) : LLMManager :=
  { providers := [("p", .ok text)], default_provider_name := "p" }

/-- C7: structured-output fence stripping and parsing. With the provider text
in hand, the call strips a leading ` ```json ` token and a trailing ` ``` `
token (case-insensitively) and parses the remainder as JSON; it succeeds
exactly when that parse succeeds and otherwise raises the schema-parse error
carrying the stripped text. Concretely, a ` ```json`-fenced `{"a": 1}` (in
either fence case) parses to the map `a ↦ 1`, and `not json` raises. -/
theorem C7_structured_output_parse (m : LLMManager) (requested : Option String)
    (pname text : String)
    (hp : get_provider m requested = some (pname, .ok text)) :
    ((∃ j, (generate_structured_output m requested).1 = .ok j) ↔
        parseJson (stripFences text) ≠ none) ∧
    ((generate_structured_output m requested).1 =
        .error (.schemaParse (stripFences text)) ↔
      parseJson (stripFences text) = none) ∧
    (∀ j, parseJson (stripFences text) = some j →
      generate_structured_output m requested = (.ok j, [pname])) ∧
    generate_structured_output (mgrText "```json\n\x7b\"a\": 1\x7d\n```") none =
      (.ok (.obj [("a", .num 1)]), ["p"]) ∧
    generate_structured_output (mgrText "```JSON\n\x7b\"a\": 1\x7d\n```") none =
      (.ok (.obj [("a", .num 1)]), ["p"]) ∧
    generate_structured_output (mgrText "not json") none =
      (.error (.schemaParse "not json"), ["p"]) := by
  have h0 : generate_structured_output m requested =
      (match parseJson (stripFences text) with
       | some j => (.ok j, [pname])
       | none => (.error (.schemaParse (stripFences text)), [pname])) := by
    unfold generate_structured_output
    rw [hp]
  refine ⟨?_, ?_, ?_, rfl, rfl, rfl⟩
  · cases hj : parseJson (stripFences text) with
    | none => simp [h0, hj]
    | some j => simp [h0, hj]
  · cases hj : parseJson (stripFences text) with
    | none => simp [h0, hj]
    | some j => simp [h0, hj]
  · intro j hj
    simp [h0, hj]

/-- Witness for C7 on a concrete gateway: the fenced example parses to the
expected map. -/
theorem C7_structured_output_parse_witness :
    generate_structured_output (mgrText "```json\n\x7b\"a\": 1\x7d\n```") none =
      (.ok (.obj [("a", .num 1)]), ["p"]) :=
  (C7_structured_output_parse (mgrText "```json\n\x7b\"a\": 1\x7d\n```") none
    "p" "```json\n\x7b\"a\": 1\x7d\n```" rfl).2.2.1 (.obj [("a", .num 1)]) rfl

/-- C10: `generate_structured_output` never falls back. When the invoked
provider fails, the exception is re-raised after exactly one provider
invocation — in contrast to `generate_text`, which in the same situation
(non-default provider, default configured) makes one retry against the
default. -/
theorem C10_structured_no_fallback (m : LLMManager) (requested : Option String)
    (pname msg : String)
    (hp : get_provider m requested = some (pname, .error msg)) :
    generate_structured_output m requested =
      (.error (.providerFailed msg), [pname]) ∧
    (∀ dres, pname ≠ m.default_provider_name →
        List.lookup m.default_provider_name m.providers = some dres →
        generate_text m requested =
          (dres.mapError GatewayErr.providerFailed, [pname, m.default_provider_name])) := by
  constructor
  · unfold generate_structured_output
    rw [hp]
  · intro dres hne hdef
    have hdefault : get_provider m none = some (m.default_provider_name, dres) := by
      unfold get_provider
      rw [hdef]
      rfl
    unfold generate_text
    rw [hp]
    simp [hne, hdefault]

/-- Witness for C10: a failing non-default provider with a healthy default.
The structured call raises after one invocation; the text call retries the
default and succeeds. -/
theorem C10_structured_no_fallback_witness :
    generate_structured_output
        { providers := [("alt", .error "boom"), ("main", .ok "text")],
          default_provider_name := "main" } (some "alt") =
      (.error (.providerFailed "boom"), ["alt"]) ∧
    generate_text
        { providers := [("alt", .error "boom"), ("main", .ok "text")],
          default_provider_name := "main" } (some "alt") =
      (.ok "text", ["alt", "main"]) := by
  have h := C10_structured_no_fallback
    { providers := [("alt", .error "boom"), ("main", .ok "text")],
      default_provider_name := "main" } (some "alt") "alt" "boom" rfl
  exact ⟨h.1, h.2 (.ok "text") (by decide) rfl⟩

/-- A context holding a datetime nested two list levels deep. -/
def listListDT : List (String × Val) := [("k", .list [.list [.dt 5]])]

mutual

/-- No datetime remains at the positions `_serialize_context` rewrites:
direct dict values (through dict nesting at any depth) and direct elements of
dict-valued lists. Datetimes deeper inside nested lists are outside this
set. -/
def noShallowDT : List (String × Val) → Bool
  | [] => true
  | (_, v) :: rest => noShallowDTEntry v && noShallowDT rest

/-- Predicate `noShallowDT` for one dict value. -/
def noShallowDTEntry : Val → Bool
  | .dt _ => false
  | .dict d => noShallowDT d
  | .list items => noShallowDTItems items
  | _ => true

/-- Predicate `noShallowDT` for the elements of a dict-valued list. -/
def noShallowDTItems : List Val → Bool
  | [] => true
  | .dt _ :: _ => false
  | .dict d :: rest => noShallowDT d && noShallowDTItems rest
  | _ :: rest => noShallowDTItems rest

end

mutual

/-- Serialization clears every datetime in the positions it rewrites. -/
theorem noShallowDT_serialize :
    ∀ ctx : List (String × Val), noShallowDT (serialize_context ctx) = true
  | [] => rfl
  | (k, v) :: rest => by
    simp [serialize_context, noShallowDT, noShallowDTEntry_serialize v,
      noShallowDT_serialize rest]

/-- Entry-value case of `noShallowDT_serialize`. -/
theorem noShallowDTEntry_serialize :
    ∀ v : Val, noShallowDTEntry (serializeEntry v) = true
  | .none => rfl
  | .bool _ => rfl
  | .int _ => rfl
  | .num _ => rfl
  | .str _ => rfl
  | .uuid _ => rfl
  | .dt _ => rfl
  | .list items => by
    simp [serializeEntry, noShallowDTEntry, noShallowDTItems_serialize items]
  | .dict d => by
    simp [serializeEntry, noShallowDTEntry, noShallowDT_serialize d]

/-- List-item case of `noShallowDT_serialize`. -/
theorem noShallowDTItems_serialize :
    ∀ items : List Val, noShallowDTItems (serializeItems items) = true
  | [] => rfl
  | .none :: rest => by
    simp [serializeItems, noShallowDTItems, noShallowDTItems_serialize rest]
  | .bool _ :: rest => by
    simp [serializeItems, noShallowDTItems, noShallowDTItems_serialize rest]
  | .int _ :: rest => by
    simp [serializeItems, noShallowDTItems, noShallowDTItems_serialize rest]
  | .num _ :: rest => by
    simp [serializeItems, noShallowDTItems, noShallowDTItems_serialize rest]
  | .str _ :: rest => by
    simp [serializeItems, noShallowDTItems, noShallowDTItems_serialize rest]
  | .uuid _ :: rest => by
    simp [serializeItems, noShallowDTItems, noShallowDTItems_serialize rest]
  | .dt _ :: rest => by
    simp [serializeItems, noShallowDTItems, noShallowDTItems_serialize rest]
  | .list xs :: rest => by
    simp [serializeItems, noShallowDTItems, noShallowDTItems_serialize rest]
  | .dict d :: rest => by
    simp [serializeItems, noShallowDTItems, noShallowDT_serialize d,
      noShallowDTItems_serialize rest]

end

mutual

/-- A datetime-free context is passed through unchanged. -/
theorem serialize_context_noDT :
    ∀ ctx : List (String × Val), Val.containsDTFields ctx = false →
      serialize_context ctx = ctx
  | [], _ => rfl
  | (k, v) :: rest, h => by
    rw [Val.containsDTFields] at h
    simp only [Bool.or_eq_false_iff] at h
    show (k, serializeEntry v) :: serialize_context rest = (k, v) :: rest
    rw [serializeEntry_noDT v h.1, serialize_context_noDT rest h.2]

/-- Entry-value case of `serialize_context_noDT`. -/
theorem serializeEntry_noDT :
    ∀ v : Val, Val.containsDT v = false → serializeEntry v = v
  | .none, _ => rfl
  | .bool _, _ => rfl
  | .int _, _ => rfl
  | .num _, _ => rfl
  | .str _, _ => rfl
  | .uuid _, _ => rfl
  | .dt _, h => by simp [Val.containsDT] at h
  | .list items, h => by
    rw [Val.containsDT] at h
    show Val.list (serializeItems items) = Val.list items
    rw [serializeItems_noDT items h]
  | .dict d, h => by
    rw [Val.containsDT] at h
    show Val.dict (serialize_context d) = Val.dict d
    rw [serialize_context_noDT d h]

/-- List-item case of `serialize_context_noDT`. -/
theorem serializeItems_noDT :
    ∀ items : List Val, Val.containsDTList items = false → serializeItems items = items
  | [], _ => rfl
  | .none :: rest, h => by
    rw [Val.containsDTList] at h
    simp only [Bool.or_eq_false_iff] at h
    show Val.none :: serializeItems rest = Val.none :: rest
    rw [serializeItems_noDT rest h.2]
  | .bool b :: rest, h => by
    rw [Val.containsDTList] at h
    simp only [Bool.or_eq_false_iff] at h
    show Val.bool b :: serializeItems rest = Val.bool b :: rest
    rw [serializeItems_noDT rest h.2]
  | .int n :: rest, h => by
    rw [Val.containsDTList] at h
    simp only [Bool.or_eq_false_iff] at h
    show Val.int n :: serializeItems rest = Val.int n :: rest
    rw [serializeItems_noDT rest h.2]
  | .num q :: rest, h => by
    rw [Val.containsDTList] at h
    simp only [Bool.or_eq_false_iff] at h
    show Val.num q :: serializeItems rest = Val.num q :: rest
    rw [serializeItems_noDT rest h.2]
  | .str s :: rest, h => by
    rw [Val.containsDTList] at h
    simp only [Bool.or_eq_false_iff] at h
    show Val.str s :: serializeItems rest = Val.str s :: rest
    rw [serializeItems_noDT rest h.2]
  | .uuid n :: rest, h => by
    rw [Val.containsDTList] at h
    simp only [Bool.or_eq_false_iff] at h
    show Val.uuid n :: serializeItems rest = Val.uuid n :: rest
    rw [serializeItems_noDT rest h.2]
  | .dt t :: rest, h => by
    rw [Val.containsDTList] at h
    simp [Val.containsDT] at h
  | .list xs :: rest, h => by
    rw [Val.containsDTList] at h
    simp only [Bool.or_eq_false_iff] at h
    show Val.list xs :: serializeItems rest = Val.list xs :: rest
    rw [serializeItems_noDT rest h.2]
  | .dict d :: rest, h => by
    rw [Val.containsDTList] at h
    simp only [Bool.or_eq_false_iff] at h
    show Val.dict (serialize_context d) :: serializeItems rest = Val.dict d :: rest
    rw [serialize_context_noDT d h.1, serializeItems_noDT rest h.2]

end

/-- C8 counterexample: `_serialize_context` does not recurse into a list
nested inside a list, so a datetime there survives serialization unchanged —
the serialized context still contains a datetime, against the claim that every
nested temporal value is converted. -/
theorem C8_counterexample :
    serialize_context listListDT = listListDT ∧
    Val.containsDTFields (serialize_context listListDT) = true :=
  ⟨rfl, rfl⟩

/-- C8 amended: before every provider call, `_serialize_context` converts to
ISO strings exactly the datetimes that are direct map values (through map
nesting at any depth) or direct elements of lists standing as map values;
datetimes inside a list nested within a list are passed through unconverted,
and a context containing no datetime at all is passed through entirely
unchanged. -/
theorem C8_amended_serialization :
    (∀ ctx, noShallowDT (serialize_context ctx) = true) ∧
    (∀ ctx, Val.containsDTFields ctx = false → serialize_context ctx = ctx) :=
  ⟨noShallowDT_serialize, serialize_context_noDT⟩

/-- Witness for the amended C8: a datetime-free context is returned as is. -/
theorem C8_amended_serialization_witness :
    serialize_context [("k", Val.str "x")] = [("k", Val.str "x")] :=
  C8_amended_serialization.2 [("k", Val.str "x")] rfl

/-- Reading a key just written returns the written record. -/
theorem getKey_setKey_same (store : List (StoreKey × MemoryItem)) (k : StoreKey)
    (item : MemoryItem) : getKey (setKey store k item) k = some item := by
  induction store with
  | nil => simp [setKey, getKey]
  | cons p t ih =>
    obtain ⟨k0, v0⟩ := p
    by_cases h : k0 = k
    · simp [setKey, h, getKey]
    · simp [setKey, h, getKey, ih]

/-- Writing one key leaves reads of any other key unchanged. -/
theorem getKey_setKey_other (store : List (StoreKey × MemoryItem)) (k k' : StoreKey)
    (item : MemoryItem) (h : k' ≠ k) :
    getKey (setKey store k item) k' = getKey store k' := by
  induction store with
  | nil => simp [setKey, getKey, h, Ne.symm h]
  | cons p t ih =>
    obtain ⟨k0, v0⟩ := p
    by_cases h0 : k0 = k
    · subst h0
      simp [setKey, getKey, Ne.symm h]
    · simp [setKey, h0, getKey, ih]

/-- Deleting one key leaves reads of any other key unchanged. -/
theorem getKey_deleteKey_other (store : List (StoreKey × MemoryItem)) (k k' : StoreKey)
    (h : k' ≠ k) : getKey (deleteKey store k) k' = getKey store k' := by
  induction store with
  | nil => simp [deleteKey, getKey]
  | cons p t ih =>
    obtain ⟨k0, v0⟩ := p
    by_cases h0 : k0 = k
    · subst h0
      simp [deleteKey, getKey, Ne.symm h, ih]
    · simp [deleteKey, h0, getKey, ih]

/-- Setting one dict key leaves lookups of any other key unchanged. -/
theorem getVal_setVal_other (d : List (String × Val)) (k k' : String) (v : Val)
    (h : k' ≠ k) : getVal (setVal d k v) k' = getVal d k' := by
  induction d with
  | nil => simp [setVal, getVal, Ne.symm h]
  | cons p t ih =>
    obtain ⟨k0, v0⟩ := p
    by_cases h0 : k0 = k
    · subst h0
      simp [setVal, getVal, Ne.symm h, ih]
    · simp [setVal, h0, getVal, ih]

/-- The content mutation performed on the retrieved record touches only the
`id` and `evidence` fields. -/
theorem mutatedContent_getVal (c : List (String × Val)) (oid : Nat)
    (evs : List (List (String × Val))) (k : String) (hk1 : k ≠ "id")
    (hk2 : k ≠ "evidence") :
    getVal (mutatedContent c oid evs) k = getVal c k := by
  unfold mutatedContent
  split
  next => rw [getVal_setVal_other _ _ _ _ hk2, getVal_setVal_other _ _ _ _ hk1]
  next => rw [getVal_setVal_other _ _ _ _ hk1]

/-- C9 counterexample: after an update the pre-update record is *not*
rewritten — it is still stored unchanged, while the updated snapshot appears
as a separate new record under a fresh memory uuid; and when the promotion
condition holds, the record handed to `move_to_core` is the originally
retrieved one, whose content still carries the pre-update confidence
(0.81675, not the updated 1) and validation count (2, not 3). -/
theorem C9_counterexample :
    update_opinion_body demoState demoItem [trueEvidence] 1 =
      .ok (demoOpinion1, demoStateAfter1, []) ∧
    getKey demoStateAfter1.store (.st demoItem.id) = some demoItem ∧
    getKey demoStateAfter1.store (.st 10) = some newItem1 ∧
    newItem1.id ≠ demoItem.id ∧
    getVal demoItem.content "confidence" = some (.num 0.675) ∧
    demoOpinion1.confidence = 0.81675 ∧
    update_opinion_body demoStateAfter1 newItem1 [trueEvidence] 2 =
      .ok (demoOpinion2, demoStateAfter2, [promotedItem1]) ∧
    promotedItem1.id = newItem1.id ∧
    getVal promotedItem1.content "confidence" = some (.num 0.81675) ∧
    getVal promotedItem1.content "validation_count" = some (.int 2) ∧
    demoOpinion2.confidence = 1 ∧
    demoOpinion2.validation_count = 3 :=
  ⟨demo_update1, rfl, rfl, by decide, rfl, rfl, demo_update2, rfl, rfl, rfl, rfl, rfl⟩

/-- C9 amended: `update_opinion` stores the updated snapshot as a *new*
short-term record under the next fresh uuid of the state; the pre-update record
remains under its own key whenever no promotion happens; and when promotion
fires, `move_to_core` is handed the originally retrieved record with only its
`id` and `evidence` content fields mutated — its stored `confidence` and
`validation_count` are still the pre-update values. -/
theorem C9_amended_update_storage (st : MemState) (mem : MemoryItem) (cur : Opinion)
    (evs : List (List (String × Val))) (now : Nat) (o : Opinion) (st' : MemState)
    (promoted : List MemoryItem)
    (hconv : contentToOpinion mem.content = some cur)
    (hok : update_opinion_body st mem evs now = .ok (o, st', promoted))
    (hfresh : st.nextId ≠ mem.id) :
    getKey st'.store (.st st.nextId) =
      some { id := st.nextId, content := o.toContent, source := "opinion_update",
             timestamp := now, memory_type := "short_term", confidence := 0,
             validation_count := 0, tags := [.str o.topic], metadata := [] } ∧
    (promoted = [] → getKey st'.store (.st mem.id) = getKey st.store (.st mem.id)) ∧
    (promoted ≠ [] →
      promoted = [{ mem with content := mutatedContent mem.content o.id evs }]) ∧
    (∀ p ∈ promoted,
      getVal p.content "confidence" = getVal mem.content "confidence" ∧
      getVal p.content "validation_count" = getVal mem.content "validation_count") := by
  rw [update_opinion_body_eq st mem cur evs now hconv] at hok
  simp only [ge_iff_le] at hok
  split at hok
  next hcond =>
    simp only [Except.ok.injEq, Prod.mk.injEq] at hok
    obtain ⟨ho, hst', hprom⟩ := hok
    subst ho
    refine ⟨?_, ?_, ?_, ?_⟩
    · rw [← hst']
      unfold move_to_core add_to_short_term
      rw [getKey_setKey_other _ _ _ _ (by simp),
        getKey_deleteKey_other _ _ _ (by simp [hfresh]),
        getKey_setKey_same]
    · intro he
      rw [← hprom] at he
      exact absurd he (by simp)
    · intro _
      rw [← hprom]
    · intro p hp
      rw [← hprom] at hp
      simp only [List.mem_singleton] at hp
      subst hp
      constructor
      · exact mutatedContent_getVal _ _ _ _ (by decide) (by decide)
      · exact mutatedContent_getVal _ _ _ _ (by decide) (by decide)
  next hcond =>
    simp only [Except.ok.injEq, Prod.mk.injEq] at hok
    obtain ⟨ho, hst', hprom⟩ := hok
    subst ho
    refine ⟨?_, ?_, ?_, ?_⟩
    · rw [← hst']
      unfold add_to_short_term
      rw [getKey_setKey_same]
    · intro _
      rw [← hst']
      unfold add_to_short_term
      exact getKey_setKey_other _ _ _ _
        (by intro hh; simp only [StoreKey.st.injEq] at hh; exact hfresh hh.symm)
    · intro hne
      rw [← hprom] at hne
      exact absurd rfl hne
    · intro p hp
      rw [← hprom] at hp
      exact absurd hp (by simp)

/-- Witness for the amended C9 at the promoting demo update: the promoted
record is exactly the retrieved record with the aliasing mutation, and its
stored confidence equals the pre-update one. -/
theorem C9_amended_update_storage_witness :
    ([promotedItem1] =
      [{ newItem1 with
          content := mutatedContent newItem1.content demoOpinion2.id [trueEvidence] }]) ∧
    getVal promotedItem1.content "confidence" = getVal newItem1.content "confidence" := by
  have h := C9_amended_update_storage demoStateAfter1 newItem1 demoOpinion1
    [trueEvidence] 2 demoOpinion2 demoStateAfter2 [promotedItem1] rfl demo_update2
    (by decide)
  exact ⟨h.2.2.1 (by simp), (h.2.2.2 promotedItem1 (by simp)).1⟩
